import Mathlib

/-!
Shallow embedding of the esp32-streamlit-controller repository's embedded
controller (src/esp-board), covering:

* `lib/task_manager.py`  — `TaskManager` (persistent scheduled-task store);
* `main_board.py`        — `ESP32Controller.check_scheduled_tasks`,
  `ESP32Controller._set_auto_off_timer` and the auto-off callback;
* `lib/MicroWebServ/microWebSrv.py` — route compilation/resolution,
  static-path normalization and the per-connection request processing.

Python dictionaries are modelled as association lists, MicroPython `Timer`
objects as explicit records with a fresh-identifier supply, and file
persistence as a `fileTasks` field mirroring the content of `tasks.json`.
-/

namespace Esp

/-- Association-list read: `d[k]` lookup for a Python dict modelled as a list
of key/value pairs (keys are unique in every state we build). -/
def aget {α β : Type} [DecidableEq α] (k : α) : List (α × β) → Option β
  | [] => none
  | (k', v) :: rest => if k' = k then some v else aget k rest

/-- Association-list write: `d[k] = v` on a Python dict. -/
def aset {α β : Type} [DecidableEq α] (k : α) (v : β) : List (α × β) → List (α × β)
  | [] => [(k, v)]
  | (k', v') :: rest => if k' = k then (k, v) :: rest else (k', v') :: aset k v rest

/-- Association-list delete: `del d[k]` on a Python dict. -/
def adel {α β : Type} [DecidableEq α] (k : α) : List (α × β) → List (α × β)
  | [] => []
  | (k', v') :: rest => if k' = k then rest else (k', v') :: adel k rest

/-- A scheduled task record, as stored by `TaskManager` (task_manager.py):
`date` is a "YYYY-MM-DD" string, `time` an "HH:MM" string, `device` the
logical device id, `duration` seconds.  The scheduler compares `date` and
`time` by string equality, so they are kept as strings here. -/
structure Task where
  date : String
  time : String
  device : String
  duration : Nat
deriving DecidableEq

/-- State of a `TaskManager` (task_manager.py): the in-memory `self.tasks`
list, the content of the storage file written by `_save_tasks` (success
path), and the configured `max_tasks` bound. -/
structure TaskManager where
  tasks : List Task
  fileTasks : List Task
  max_tasks : Nat
deriving DecidableEq

/-- `TaskManager.add_task` (task_manager.py lines 99-127): raises
`ValueError` when the list is already at `max_tasks`, otherwise appends the
new task and persists the whole list with `_save_tasks`. -/
def TaskManager.add_task (m : TaskManager) (date time device : String)
    (duration : Nat) : Except String TaskManager :=
  if m.max_tasks ≤ m.tasks.length then
    Except.error ("Maximum number of tasks reached (" ++ toString m.max_tasks ++ ")")
  else
    let ts := m.tasks ++ [⟨date, time, device, duration⟩]
    Except.ok { m with tasks := ts, fileTasks := ts }

/-- `TaskManager.delete_task` (task_manager.py lines 138-156): deletes the
task at `index` when `0 <= index < len(tasks)` and persists, otherwise
returns `False` leaving everything unchanged. -/
def TaskManager.delete_task (m : TaskManager) (index : Nat) : TaskManager × Bool :=
  if index < m.tasks.length then
    ({ m with tasks := m.tasks.eraseIdx index, fileTasks := m.tasks.eraseIdx index }, true)
  else
    (m, false)

/-- A live MicroPython one-shot `Timer` created by `_set_auto_off_timer`:
`tid` identifies the timer object, `device`/`channel` are the callback's
captured arguments, `periodMs` the `duration * 1000` period. -/
structure TimerObj where
  tid : Nat
  device : String
  channel : Nat
  periodMs : Nat
deriving DecidableEq

/-- State of the `ESP32Controller` (main_board.py) as far as the scheduler
and auto-off machinery observe it: `device_status` is the boolean part of
`self.device_status` (keys `pump1`,`pump2`,`pump3`,`dcmotor`; the `servo`
angle entry is never touched by the scheduler and is omitted), `relays` the
relay channels driven by `RelayController.on/off`, `auto_off_timers` the
`self.auto_off_timers` dict mapping a device name to the identifier of its
current timer object, `live_timers` the created-and-not-yet
deinitialized/fired timer objects, `next_tid` a fresh-identifier supply. -/
structure ESP32Controller where
  device_status : List (String × Bool)
  relays : List (Nat × Bool)
  auto_off_timers : List (String × Nat)
  live_timers : List TimerObj
  next_tid : Nat
  task_manager : TaskManager
deriving DecidableEq

/-- `ESP32Controller._set_auto_off_timer` (main_board.py lines 266-296):
if the device already has an entry in `auto_off_timers`, `deinit` that timer
(it stops being live), then create a fresh one-shot timer with period
`duration * 1000` ms and store it under the device's key. -/
def ESP32Controller.set_auto_off_timer (s : ESP32Controller)
    (device_name : String) (channel duration : Nat) : ESP32Controller :=
  let s1 :=
    match aget device_name s.auto_off_timers with
    | some tid => { s with live_timers := s.live_timers.filter (fun t => t.tid ≠ tid) }
    | none => s
  { s1 with
    auto_off_timers := aset device_name s1.next_tid s1.auto_off_timers,
    live_timers := s1.live_timers ++ [⟨s1.next_tid, device_name, channel, duration * 1000⟩],
    next_tid := s1.next_tid + 1 }

/-- Expiry of the live timer with identifier `tid`: the `auto_off_callback`
closure inside `_set_auto_off_timer` (main_board.py lines 279-284) runs—
relay off, `device_status[device] = False`, and `del auto_off_timers[device]`
when that key is present—and the fired one-shot timer stops being live.
A timer that is not live (already deinitialized or fired) cannot fire. -/
def ESP32Controller.fire_auto_off (s : ESP32Controller) (tid : Nat) : ESP32Controller :=
  match s.live_timers.find? (fun t => t.tid = tid) with
  | none => s
  | some t =>
    { s with
      live_timers := s.live_timers.filter (fun u => u.tid ≠ tid),
      relays := aset t.channel false s.relays,
      device_status := aset t.device false s.device_status,
      auto_off_timers :=
        match aget t.device s.auto_off_timers with
        | some _ => adel t.device s.auto_off_timers
        | none => s.auto_off_timers }

/-- The relay channel assigned to a device by the `if`/`elif` chain of
`check_scheduled_tasks` (main_board.py lines 241-256); `none` for any other
device name, for which the chain performs no action. -/
def scheduledChannel? (device : String) : Option Nat :=
  if device = "pump1" then some 0
  else if device = "pump2" then some 1
  else if device = "pump3" then some 2
  else if device = "dcmotor" then some 3
  else none

/-- The device-specific body of the `if`/`elif` chain in
`check_scheduled_tasks` (main_board.py lines 241-256): for each of the four
known devices, relay on, `device_status[device] = True`, then
`_set_auto_off_timer(device, channel, duration)`; any other device name
falls through the chain without any effect. -/
def ESP32Controller.execTaskDevice (s : ESP32Controller) (device : String)
    (duration : Nat) : ESP32Controller :=
  if device = "pump1" then
    ESP32Controller.set_auto_off_timer
      { s with relays := aset 0 true s.relays,
               device_status := aset "pump1" true s.device_status }
      "pump1" 0 duration
  else if device = "pump2" then
    ESP32Controller.set_auto_off_timer
      { s with relays := aset 1 true s.relays,
               device_status := aset "pump2" true s.device_status }
      "pump2" 1 duration
  else if device = "pump3" then
    ESP32Controller.set_auto_off_timer
      { s with relays := aset 2 true s.relays,
               device_status := aset "pump3" true s.device_status }
      "pump3" 2 duration
  else if device = "dcmotor" then
    ESP32Controller.set_auto_off_timer
      { s with relays := aset 3 true s.relays,
               device_status := aset "dcmotor" true s.device_status }
      "dcmotor" 3 duration
  else
    s

/-- Index and value of the first task whose `date` and `time` both equal the
current date/time strings — the task found by the
`for i, task in enumerate(tasks)` loop of `check_scheduled_tasks` before it
executes and `break`s. -/
def findFirstMatch (current_date current_time : String) :
    List Task → Option (Nat × Task)
  | [] => none
  | t :: rest =>
    if t.date = current_date ∧ t.time = current_time then some (0, t)
    else
      match findFirstMatch current_date current_time rest with
      | some (i, t') => some (i + 1, t')
      | none => none

/-- `ESP32Controller.check_scheduled_tasks` (main_board.py lines 213-264),
one scheduler tick with the current date/time already formatted: scan the
task list in order; on the first task matching the current minute, run the
device `if`/`elif` chain, delete that task, and `break` (at most one task
per tick); when no task matches, do nothing. -/
def ESP32Controller.check_scheduled_tasks (s : ESP32Controller)
    (current_date current_time : String) : ESP32Controller :=
  match findFirstMatch current_date current_time s.task_manager.tasks with
  | none => s
  | some (i, task) =>
    let s' := s.execTaskDevice task.device task.duration
    { s' with task_manager := (s'.task_manager.delete_task i).1 }

/-- Initial controller state built by `ESP32Controller.__init__` and
`initialize_hardware` (main_board.py): every boolean device off, relays off,
no auto-off timers, and the task list loaded from `tasks.json`
(`_load_tasks`) with `max_tasks = 50` from config.py. -/
def initState (loaded : List Task) : ESP32Controller :=
  { device_status := [("pump1", false), ("pump2", false), ("pump3", false), ("dcmotor", false)],
    relays := [(0, false), (1, false), (2, false), (3, false)],
    auto_off_timers := [],
    live_timers := [],
    next_tid := 0,
    task_manager := { tasks := loaded, fileTasks := loaded, max_tasks := 50 } }

/-! ### Association-list lemmas -/

theorem aget_aset_self {α β : Type} [DecidableEq α] (k : α) (v : β) (l : List (α × β)) :
    aget k (aset k v l) = some v := by
  induction l with
  | nil => simp [aget, aset]
  | cons p rest ih =>
    obtain ⟨a, b⟩ := p
    by_cases ha : a = k
    · subst ha
      simp [aget, aset]
    · simp [aget, aset, ha, ih]

theorem aget_aset_ne {α β : Type} [DecidableEq α] (k k' : α) (v : β) (l : List (α × β))
    (h : k' ≠ k) : aget k' (aset k v l) = aget k' l := by
  have h' : ¬(k = k') := fun hk => h hk.symm
  induction l with
  | nil => simp [aget, aset, h']
  | cons p rest ih =>
    obtain ⟨a, b⟩ := p
    by_cases ha : a = k
    · subst ha
      simp [aget, aset, h']
    · by_cases hb : a = k'
      · subst hb
        simp [aget, aset, ha]
      · simp [aget, aset, ha, hb, ih]

theorem aget_eq_none_of_not_mem {α β : Type} [DecidableEq α] (k : α) (l : List (α × β))
    (h : k ∉ l.map Prod.fst) : aget k l = none := by
  induction l with
  | nil => rfl
  | cons p rest ih =>
    obtain ⟨a, b⟩ := p
    simp only [List.map_cons, List.mem_cons, not_or] at h
    have ha : ¬(a = k) := fun hk => h.1 hk.symm
    simp [aget, ha, ih h.2]

theorem aget_adel_self {α β : Type} [DecidableEq α] (k : α) (l : List (α × β))
    (h : (l.map Prod.fst).Nodup) : aget k (adel k l) = none := by
  induction l with
  | nil => rfl
  | cons p rest ih =>
    obtain ⟨a, b⟩ := p
    simp only [List.map_cons, List.nodup_cons] at h
    by_cases ha : a = k
    · subst ha
      simp [adel, aget_eq_none_of_not_mem a rest h.1]
    · simp [adel, aget, ha, ih h.2]

theorem aget_adel_ne {α β : Type} [DecidableEq α] (k k' : α) (l : List (α × β))
    (h : k' ≠ k) : aget k' (adel k l) = aget k' l := by
  induction l with
  | nil => rfl
  | cons p rest ih =>
    obtain ⟨a, b⟩ := p
    by_cases ha : a = k
    · subst ha
      have h' : ¬(a = k') := fun hk => h (hk.symm)
      simp [adel, aget, h']
    · by_cases hb : a = k'
      · subst hb
        simp [adel, aget, ha]
      · simp [adel, aget, ha, hb, ih]

theorem aset_mem_cases {α β : Type} [DecidableEq α] (k : α) (v : β) (l : List (α × β))
    (p : α × β) (hp : p ∈ aset k v l) : p ∈ l ∨ p = (k, v) := by
  induction l with
  | nil =>
    simp only [aset, List.mem_singleton] at hp
    exact Or.inr hp
  | cons q rest ih =>
    obtain ⟨a, b⟩ := q
    by_cases ha : a = k
    · simp only [aset, if_pos ha] at hp
      rcases List.mem_cons.mp hp with h1 | h1
      · exact Or.inr h1
      · exact Or.inl (List.mem_cons_of_mem _ h1)
    · simp only [aset, if_neg ha] at hp
      rcases List.mem_cons.mp hp with h1 | h1
      · exact Or.inl (by simp [h1])
      · rcases ih h1 with h' | h'
        · exact Or.inl (List.mem_cons_of_mem _ h')
        · exact Or.inr h'

theorem keys_aset_nodup {α β : Type} [DecidableEq α] (k : α) (v : β) (l : List (α × β))
    (h : (l.map Prod.fst).Nodup) : ((aset k v l).map Prod.fst).Nodup := by
  induction l with
  | nil => simp [aset]
  | cons p rest ih =>
    obtain ⟨a, b⟩ := p
    simp only [List.map_cons, List.nodup_cons] at h
    by_cases ha : a = k
    · subst ha
      rw [show aset a v ((a, b) :: rest) = (a, v) :: rest from by simp [aset]]
      simp only [List.map_cons, List.nodup_cons]
      exact ⟨h.1, h.2⟩
    · simp only [aset, if_neg ha, List.map_cons, List.nodup_cons]
      constructor
      · intro hmem
        rcases List.mem_map.mp hmem with ⟨p', hp', hfst⟩
        rcases aset_mem_cases k v rest p' hp' with hin | hkv
        · exact h.1 (List.mem_map.mpr ⟨p', hin, hfst⟩)
        · apply ha
          rw [hkv] at hfst
          exact hfst.symm
      · exact ih h.2

theorem adel_sublist_keys {α β : Type} [DecidableEq α] (k : α) (l : List (α × β)) :
    ((adel k l).map Prod.fst).Sublist (l.map Prod.fst) := by
  induction l with
  | nil => simp [adel]
  | cons p rest ih =>
    obtain ⟨a, b⟩ := p
    by_cases ha : a = k
    · simp [adel, ha]
    · simpa [adel, ha] using ih

theorem keys_adel_nodup {α β : Type} [DecidableEq α] (k : α) (l : List (α × β))
    (h : (l.map Prod.fst).Nodup) : ((adel k l).map Prod.fst).Nodup :=
  (adel_sublist_keys k l).nodup h

/-! ### Scheduler-tick lemmas -/

theorem findFirstMatch_spec (d tm : String) (ts : List Task) (i : Nat) (task : Task)
    (h : findFirstMatch d tm ts = some (i, task)) :
    i < ts.length ∧ ts.get? i = some task ∧ task.date = d ∧ task.time = tm ∧
      ∀ j, j < i → ∀ tj, ts.get? j = some tj → ¬(tj.date = d ∧ tj.time = tm) := by
  induction ts generalizing i with
  | nil => simp [findFirstMatch] at h
  | cons t rest ih =>
    by_cases hm : t.date = d ∧ t.time = tm
    · rw [findFirstMatch, if_pos hm] at h
      have hp := Option.some.inj h
      have hi : 0 = i := congrArg Prod.fst hp
      have ht : t = task := congrArg Prod.snd hp
      subst hi
      subst ht
      refine ⟨Nat.succ_pos _, rfl, hm.1, hm.2, ?_⟩
      intro j hj
      omega
    · rw [findFirstMatch, if_neg hm] at h
      cases hrec : findFirstMatch d tm rest with
      | none => rw [hrec] at h; exact absurd h (by simp)
      | some p =>
        obtain ⟨i', task'⟩ := p
        rw [hrec] at h
        have hp := Option.some.inj h
        have hi : i' + 1 = i := congrArg Prod.fst hp
        have ht : task' = task := congrArg Prod.snd hp
        subst hi
        subst ht
        obtain ⟨h1, h2, h3, h4, h5⟩ := ih i' hrec
        refine ⟨by simpa using Nat.succ_lt_succ h1, by simpa using h2, h3, h4, ?_⟩
        intro j hj tj htj
        cases j with
        | zero =>
          simp only [List.get?] at htj
          cases htj
          exact hm
        | succ j' =>
          exact h5 j' (Nat.lt_of_succ_lt_succ hj) tj (by simpa using htj)

theorem findFirstMatch_none (d tm : String) (ts : List Task)
    (h : findFirstMatch d tm ts = none) :
    ∀ tj ∈ ts, ¬(tj.date = d ∧ tj.time = tm) := by
  induction ts with
  | nil => simp
  | cons t rest ih =>
    by_cases hm : t.date = d ∧ t.time = tm
    · rw [findFirstMatch, if_pos hm] at h
      exact absurd h (by simp)
    · rw [findFirstMatch, if_neg hm] at h
      intro tj htj
      rcases List.mem_cons.mp htj with h1 | h1
      · subst h1; exact hm
      · cases hrec : findFirstMatch d tm rest with
        | none => exact ih hrec tj h1
        | some p => rw [hrec] at h; obtain ⟨a, b⟩ := p; simp at h

theorem set_auto_off_timer_frame (s : ESP32Controller) (dev : String) (ch dur : Nat) :
    (s.set_auto_off_timer dev ch dur).device_status = s.device_status ∧
    (s.set_auto_off_timer dev ch dur).relays = s.relays ∧
    (s.set_auto_off_timer dev ch dur).task_manager = s.task_manager ∧
    (s.set_auto_off_timer dev ch dur).next_tid = s.next_tid + 1 := by
  unfold ESP32Controller.set_auto_off_timer
  cases aget dev s.auto_off_timers <;> simp

theorem set_auto_off_timer_live (s : ESP32Controller) (dev : String) (ch dur : Nat) :
    ∃ pruned : List TimerObj,
      (s.set_auto_off_timer dev ch dur).live_timers =
        pruned ++ [⟨s.next_tid, dev, ch, dur * 1000⟩] ∧ pruned.Sublist s.live_timers := by
  unfold ESP32Controller.set_auto_off_timer
  cases aget dev s.auto_off_timers with
  | none => exact ⟨s.live_timers, by simp⟩
  | some tid =>
    exact ⟨s.live_timers.filter (fun t => t.tid ≠ tid), by simp [List.filter_sublist]⟩

theorem set_auto_off_timer_dict (s : ESP32Controller) (dev : String) (ch dur : Nat) :
    aget dev (s.set_auto_off_timer dev ch dur).auto_off_timers = some s.next_tid := by
  unfold ESP32Controller.set_auto_off_timer
  cases aget dev s.auto_off_timers <;> simp [aget_aset_self]

theorem execTaskDevice_known (s : ESP32Controller) (dev : String) (ch dur : Nat)
    (h : scheduledChannel? dev = some ch) :
    s.execTaskDevice dev dur =
      ESP32Controller.set_auto_off_timer
        { s with relays := aset ch true s.relays,
                 device_status := aset dev true s.device_status }
        dev ch dur := by
  unfold scheduledChannel? at h
  unfold ESP32Controller.execTaskDevice
  by_cases h1 : dev = "pump1"
  · subst h1
    simp only [if_pos rfl] at h ⊢
    cases h
    rfl
  · rw [if_neg h1] at h ⊢
    by_cases h2 : dev = "pump2"
    · subst h2
      simp only [if_pos rfl] at h ⊢
      cases h
      rfl
    · rw [if_neg h2] at h ⊢
      by_cases h3 : dev = "pump3"
      · subst h3
        simp only [if_pos rfl] at h ⊢
        cases h
        rfl
      · rw [if_neg h3] at h ⊢
        by_cases h4 : dev = "dcmotor"
        · subst h4
          simp only [if_pos rfl] at h ⊢
          cases h
          rfl
        · rw [if_neg h4] at h
          simp at h

theorem execTaskDevice_unknown (s : ESP32Controller) (dev : String) (dur : Nat)
    (h : scheduledChannel? dev = none) : s.execTaskDevice dev dur = s := by
  unfold scheduledChannel? at h
  unfold ESP32Controller.execTaskDevice
  by_cases h1 : dev = "pump1"
  · rw [if_pos h1] at h; simp at h
  · rw [if_neg h1] at h ⊢
    by_cases h2 : dev = "pump2"
    · rw [if_pos h2] at h; simp at h
    · rw [if_neg h2] at h ⊢
      by_cases h3 : dev = "pump3"
      · rw [if_pos h3] at h; simp at h
      · rw [if_neg h3] at h ⊢
        by_cases h4 : dev = "dcmotor"
        · rw [if_pos h4] at h; simp at h
        · rw [if_neg h4]



theorem length_eraseIdx_add_one {α : Type} (l : List α) (i : Nat) (h : i < l.length) :
    (l.eraseIdx i).length + 1 = l.length := by
  induction l generalizing i with
  | nil => simp at h
  | cons a rest ih =>
    cases i with
    | zero => simp [List.eraseIdx]
    | succ j =>
      have := ih j (Nat.lt_of_succ_lt_succ h)
      simp only [List.eraseIdx, List.length_cons]
      omega

/-! ### Claim theorems: task store and scheduler -/

/-- Claim C4: `TaskManager.add_task` at or over `max_tasks` fails with the
task-limit-reached `ValueError` and produces no new state (neither the
in-memory list nor the persisted file changes); strictly under the maximum
it appends the task at the end and overwrites the whole storage file with
the full list. -/
theorem add_task_limit_spec (m : TaskManager) (date time device : String) (dur : Nat) :
    (m.max_tasks ≤ m.tasks.length →
      m.add_task date time device dur =
        Except.error ("Maximum number of tasks reached (" ++ toString m.max_tasks ++ ")")) ∧
    (m.tasks.length < m.max_tasks →
      m.add_task date time device dur =
        Except.ok { tasks := m.tasks ++ [⟨date, time, device, dur⟩],
                    fileTasks := m.tasks ++ [⟨date, time, device, dur⟩],
                    max_tasks := m.max_tasks }) := by
  constructor
  · intro h
    unfold TaskManager.add_task
    rw [if_pos h]
  · intro h
    unfold TaskManager.add_task
    rw [if_neg (Nat.not_le.mpr h)]

/-- Witness for `add_task_limit_spec` at a store of capacity 1: full store
rejects, empty store appends and persists. -/
theorem add_task_limit_spec_witness :
    (TaskManager.add_task
        ⟨[⟨"2024-12-25", "14:30", "pump1", 300⟩], [⟨"2024-12-25", "14:30", "pump1", 300⟩], 1⟩
        "2024-12-26" "10:00" "pump2" 60 =
      Except.error ("Maximum number of tasks reached (" ++ toString (1 : Nat) ++ ")")) ∧
    (TaskManager.add_task ⟨[], [], 1⟩ "2024-12-26" "10:00" "pump2" 60 =
      Except.ok ⟨[⟨"2024-12-26", "10:00", "pump2", 60⟩],
                 [⟨"2024-12-26", "10:00", "pump2", 60⟩], 1⟩) := by
  constructor
  · exact (add_task_limit_spec _ "2024-12-26" "10:00" "pump2" 60).1 (by decide)
  · exact (add_task_limit_spec _ "2024-12-26" "10:00" "pump2" 60).2 (by decide)

/-- Claim C1 counterexample: a tick at 2024-12-25 14:30 with the single
matching task for device id "fan" (outside the `if`/`elif` chain of
`check_scheduled_tasks`) deletes the task but mutates no device-registry
entry and arms no timer, refuting the claim that the tick turns the first
matching task's device on and arms an auto-off timer for it. -/
theorem scheduler_tick_claim_cex :
    findFirstMatch "2024-12-25" "14:30" [⟨"2024-12-25", "14:30", "fan", 300⟩] =
      some (0, ⟨"2024-12-25", "14:30", "fan", 300⟩) ∧
    ((initState [⟨"2024-12-25", "14:30", "fan", 300⟩]).check_scheduled_tasks
        "2024-12-25" "14:30").device_status = (initState []).device_status ∧
    aget "fan" ((initState [⟨"2024-12-25", "14:30", "fan", 300⟩]).check_scheduled_tasks
        "2024-12-25" "14:30").device_status ≠ some true ∧
    ((initState [⟨"2024-12-25", "14:30", "fan", 300⟩]).check_scheduled_tasks
        "2024-12-25" "14:30").live_timers = [] ∧
    ((initState [⟨"2024-12-25", "14:30", "fan", 300⟩]).check_scheduled_tasks
        "2024-12-25" "14:30").task_manager.tasks = [] := by
  decide

/-- Claim C1 (amended): on a tick, if the first task matching the current
date and minute names one of the four known devices (`pump1`, `pump2`,
`pump3`, `dcmotor`), the tick sets exactly that device's registry entry to
on, switches its relay channel on, arms a fresh auto-off timer for it with
period `duration * 1000` ms, and deletes exactly that task (one task per
tick); a tick whose task list has no matching task changes nothing.  (When
the first matching task's device is unknown, the task is deleted without
activation — claim C10.) -/
theorem scheduler_tick_known_device_spec (s : ESP32Controller) (d tm : String)
    (i : Nat) (task : Task) (ch : Nat)
    (hfind : findFirstMatch d tm s.task_manager.tasks = some (i, task))
    (hch : scheduledChannel? task.device = some ch) :
    (s.check_scheduled_tasks d tm).device_status = aset task.device true s.device_status ∧
    (s.check_scheduled_tasks d tm).relays = aset ch true s.relays ∧
    (∃ pruned : List TimerObj, (s.check_scheduled_tasks d tm).live_timers =
        pruned ++ [⟨s.next_tid, task.device, ch, task.duration * 1000⟩]) ∧
    aget task.device (s.check_scheduled_tasks d tm).auto_off_timers = some s.next_tid ∧
    (s.check_scheduled_tasks d tm).task_manager.tasks = s.task_manager.tasks.eraseIdx i ∧
    (s.check_scheduled_tasks d tm).task_manager.fileTasks = s.task_manager.tasks.eraseIdx i ∧
    (s.check_scheduled_tasks d tm).task_manager.tasks.length + 1 = s.task_manager.tasks.length ∧
    (∀ d' t', findFirstMatch d' t' s.task_manager.tasks = none →
        s.check_scheduled_tasks d' t' = s) := by
  obtain ⟨hlen, -, -, -, -⟩ := findFirstMatch_spec d tm s.task_manager.tasks i task hfind
  have hnm : ∀ d' t', findFirstMatch d' t' s.task_manager.tasks = none →
      s.check_scheduled_tasks d' t' = s := by
    intro d' t' hnone
    unfold ESP32Controller.check_scheduled_tasks
    rw [hnone]
  have hdel : s.task_manager.delete_task i =
      ({ tasks := s.task_manager.tasks.eraseIdx i,
         fileTasks := s.task_manager.tasks.eraseIdx i,
         max_tasks := s.task_manager.max_tasks }, true) := by
    unfold TaskManager.delete_task
    rw [if_pos hlen]
  have hexec := execTaskDevice_known s task.device ch task.duration hch
  obtain ⟨f1, f2, f3, f4⟩ := set_auto_off_timer_frame
    { s with relays := aset ch true s.relays,
             device_status := aset task.device true s.device_status }
    task.device ch task.duration
  obtain ⟨pruned, hlive, -⟩ := set_auto_off_timer_live
    { s with relays := aset ch true s.relays,
             device_status := aset task.device true s.device_status }
    task.device ch task.duration
  have hdict := set_auto_off_timer_dict
    { s with relays := aset ch true s.relays,
             device_status := aset task.device true s.device_status }
    task.device ch task.duration
  have hstate : s.check_scheduled_tasks d tm =
      { ESP32Controller.set_auto_off_timer
          { s with relays := aset ch true s.relays,
                   device_status := aset task.device true s.device_status }
          task.device ch task.duration with
        task_manager := { tasks := s.task_manager.tasks.eraseIdx i,
                          fileTasks := s.task_manager.tasks.eraseIdx i,
                          max_tasks := s.task_manager.max_tasks } } := by
    unfold ESP32Controller.check_scheduled_tasks
    rw [hfind]
    simp only [hexec, f3, hdel]
  refine ⟨?_, ?_, ?_, ?_, ?_, ?_, ?_, hnm⟩
  · rw [hstate]
    exact f1
  · rw [hstate]
    exact f2
  · rw [hstate]
    exact ⟨pruned, hlive⟩
  · rw [hstate]
    exact hdict
  · rw [hstate]
  · rw [hstate]
  · rw [hstate]
    exact length_eraseIdx_add_one s.task_manager.tasks i hlen

/-- Witness for `scheduler_tick_known_device_spec`: the spec's own example —
task (2024-12-25, 14:30, pump1, 300) firing at 2024-12-25 14:30. -/
theorem scheduler_tick_known_device_spec_witness :
    ((initState [⟨"2024-12-25", "14:30", "pump1", 300⟩]).check_scheduled_tasks
        "2024-12-25" "14:30").device_status = aset "pump1" true (initState []).device_status ∧
    ((initState [⟨"2024-12-25", "14:30", "pump1", 300⟩]).check_scheduled_tasks
        "2024-12-25" "14:30").relays = aset 0 true (initState []).relays ∧
    (∃ pruned : List TimerObj,
      ((initState [⟨"2024-12-25", "14:30", "pump1", 300⟩]).check_scheduled_tasks
          "2024-12-25" "14:30").live_timers = pruned ++ [⟨0, "pump1", 0, 300000⟩]) ∧
    aget "pump1" ((initState [⟨"2024-12-25", "14:30", "pump1", 300⟩]).check_scheduled_tasks
        "2024-12-25" "14:30").auto_off_timers = some 0 ∧
    ((initState [⟨"2024-12-25", "14:30", "pump1", 300⟩]).check_scheduled_tasks
        "2024-12-25" "14:30").task_manager.tasks = [] := by
  have h := scheduler_tick_known_device_spec
    (initState [⟨"2024-12-25", "14:30", "pump1", 300⟩]) "2024-12-25" "14:30"
    0 ⟨"2024-12-25", "14:30", "pump1", 300⟩ 0 (by decide) (by decide)
  exact ⟨h.1, h.2.1, h.2.2.1, h.2.2.2.1, h.2.2.2.2.1⟩

/-- Claim C10: a tick whose first matching task names a device outside the
known set deletes that task (consuming the tick's one-task budget) while
leaving the device registry, the relays, the auto-off timer set and the
timer dictionary untouched — the task is silently discarded. -/
theorem scheduler_tick_unknown_device_spec (s : ESP32Controller) (d tm : String)
    (i : Nat) (task : Task)
    (hfind : findFirstMatch d tm s.task_manager.tasks = some (i, task))
    (hch : scheduledChannel? task.device = none) :
    (s.check_scheduled_tasks d tm).device_status = s.device_status ∧
    (s.check_scheduled_tasks d tm).relays = s.relays ∧
    (s.check_scheduled_tasks d tm).auto_off_timers = s.auto_off_timers ∧
    (s.check_scheduled_tasks d tm).live_timers = s.live_timers ∧
    (s.check_scheduled_tasks d tm).next_tid = s.next_tid ∧
    (s.check_scheduled_tasks d tm).task_manager.tasks = s.task_manager.tasks.eraseIdx i ∧
    (s.check_scheduled_tasks d tm).task_manager.fileTasks = s.task_manager.tasks.eraseIdx i := by
  obtain ⟨hlen, -, -, -, -⟩ := findFirstMatch_spec d tm s.task_manager.tasks i task hfind
  have hdel : s.task_manager.delete_task i =
      ({ tasks := s.task_manager.tasks.eraseIdx i,
         fileTasks := s.task_manager.tasks.eraseIdx i,
         max_tasks := s.task_manager.max_tasks }, true) := by
    unfold TaskManager.delete_task
    rw [if_pos hlen]
  have hstate : s.check_scheduled_tasks d tm =
      { s with task_manager := { tasks := s.task_manager.tasks.eraseIdx i,
                                 fileTasks := s.task_manager.tasks.eraseIdx i,
                                 max_tasks := s.task_manager.max_tasks } } := by
    unfold ESP32Controller.check_scheduled_tasks
    rw [hfind]
    simp only [execTaskDevice_unknown s task.device task.duration hch, hdel]
  rw [hstate]
  exact ⟨rfl, rfl, rfl, rfl, rfl, rfl, rfl⟩

/-- Witness for `scheduler_tick_unknown_device_spec` on the "fan" task. -/
theorem scheduler_tick_unknown_device_spec_witness :
    ((initState [⟨"2024-12-25", "14:30", "fan", 300⟩]).check_scheduled_tasks
        "2024-12-25" "14:30").device_status = (initState []).device_status ∧
    ((initState [⟨"2024-12-25", "14:30", "fan", 300⟩]).check_scheduled_tasks
        "2024-12-25" "14:30").live_timers = (initState []).live_timers ∧
    ((initState [⟨"2024-12-25", "14:30", "fan", 300⟩]).check_scheduled_tasks
        "2024-12-25" "14:30").task_manager.tasks = [] := by
  have h := scheduler_tick_unknown_device_spec
    (initState [⟨"2024-12-25", "14:30", "fan", 300⟩]) "2024-12-25" "14:30"
    0 ⟨"2024-12-25", "14:30", "fan", 300⟩ (by decide) (by decide)
  exact ⟨h.1, h.2.2.2.1, h.2.2.2.2.2.1⟩

/-- Claim C5 counterexample: a scheduled activation of `pump1` with
duration 0 arms an auto-off timer (a one-shot timer with period 0 ms),
refuting the claim that a duration-0 activation arms no timer and that the
zero-duration check is performed at every call site of the arm operation —
`check_scheduled_tasks` calls `_set_auto_off_timer` unconditionally. -/
theorem zero_duration_timer_cex :
    findFirstMatch "2025-01-01" "00:00" [⟨"2025-01-01", "00:00", "pump1", 0⟩] =
      some (0, ⟨"2025-01-01", "00:00", "pump1", 0⟩) ∧
    ((initState [⟨"2025-01-01", "00:00", "pump1", 0⟩]).check_scheduled_tasks
        "2025-01-01" "00:00").live_timers = [⟨0, "pump1", 0, 0⟩] := by
  decide

/-- Claim C5 (amended): after a scheduled activation of a known device, an
auto-off timer is armed for that device unconditionally, with period
`duration * 1000` ms — also when the duration is 0 (no zero-duration check
exists at the scheduler's call site of `_set_auto_off_timer`). -/
theorem zero_duration_timer_spec (s : ESP32Controller) (d tm : String)
    (i : Nat) (task : Task) (ch : Nat)
    (hfind : findFirstMatch d tm s.task_manager.tasks = some (i, task))
    (hch : scheduledChannel? task.device = some ch) :
    ∃ pruned : List TimerObj, (s.check_scheduled_tasks d tm).live_timers =
        pruned ++ [⟨s.next_tid, task.device, ch, task.duration * 1000⟩] := by
  have hexec := execTaskDevice_known s task.device ch task.duration hch
  obtain ⟨pruned, hlive, -⟩ := set_auto_off_timer_live
    { s with relays := aset ch true s.relays,
             device_status := aset task.device true s.device_status }
    task.device ch task.duration
  unfold ESP32Controller.check_scheduled_tasks
  rw [hfind]
  simp only [hexec]
  exact ⟨pruned, by simpa using hlive⟩

/-- Witness for `zero_duration_timer_spec` at duration 0. -/
theorem zero_duration_timer_spec_witness :
    ∃ pruned : List TimerObj,
      ((initState [⟨"2025-01-01", "00:00", "pump1", 0⟩]).check_scheduled_tasks
          "2025-01-01" "00:00").live_timers = pruned ++ [⟨0, "pump1", 0, 0⟩] :=
  zero_duration_timer_spec (initState [⟨"2025-01-01", "00:00", "pump1", 0⟩])
    "2025-01-01" "00:00" 0 ⟨"2025-01-01", "00:00", "pump1", 0⟩ 0 (by decide) (by decide)


/-! ### Auto-off timer invariant (claim C2) -/

/-- The live timers currently associated with a device. -/
def liveFor (s : ESP32Controller) (dev : String) : List TimerObj :=
  s.live_timers.filter (fun t => t.device = dev)

/-- Well-formedness of the timer machinery, maintained by every operation of
the controller: every live timer is the one its device's `auto_off_timers`
entry points to, timer identifiers are fresh and pairwise distinct, and the
timer dictionary has no duplicate keys. -/
def TimersWF (s : ESP32Controller) : Prop :=
  (∀ t ∈ s.live_timers, aget t.device s.auto_off_timers = some t.tid ∧ t.tid < s.next_tid) ∧
  (s.live_timers.map TimerObj.tid).Nodup ∧
  (s.auto_off_timers.map Prod.fst).Nodup

theorem timersWF_initState (loaded : List Task) : TimersWF (initState loaded) := by
  refine ⟨?_, ?_, ?_⟩ <;> simp [initState]

theorem timersWF_set_auto_off (s : ESP32Controller) (dev : String) (ch dur : Nat)
    (h : TimersWF s) : TimersWF (s.set_auto_off_timer dev ch dur) := by
  obtain ⟨hlink, hnodup, hkeys⟩ := h
  unfold ESP32Controller.set_auto_off_timer
  cases hd : aget dev s.auto_off_timers with
  | none =>
    simp only
    refine ⟨?_, ?_, keys_aset_nodup dev s.next_tid s.auto_off_timers hkeys⟩
    · intro t ht
      rcases List.mem_append.mp ht with hin | hnew
      · have hne : t.device ≠ dev := by
          intro hdev
          have h1 := (hlink t hin).1
          rw [hdev, hd] at h1
          exact Option.noConfusion h1
        refine ⟨?_, Nat.lt_succ_of_lt (hlink t hin).2⟩
        rw [aget_aset_ne dev t.device s.next_tid s.auto_off_timers hne]
        exact (hlink t hin).1
      · have ht' : t = ⟨s.next_tid, dev, ch, dur * 1000⟩ := by simpa using hnew
        subst ht'
        exact ⟨aget_aset_self dev s.next_tid s.auto_off_timers, Nat.lt_succ_self _⟩
    · rw [List.map_append]
      refine List.nodup_append.mpr ⟨hnodup, by simp, ?_⟩
      intro x hx hx'
      have hxk : x = s.next_tid := by simpa using hx'
      rcases List.mem_map.mp hx with ⟨t, htmem, htid⟩
      have := (hlink t htmem).2
      omega
  | some tid0 =>
    simp only
    refine ⟨?_, ?_, keys_aset_nodup dev s.next_tid s.auto_off_timers hkeys⟩
    · intro t ht
      rcases List.mem_append.mp ht with hin | hnew
      · have hmem := (List.mem_filter.mp hin).1
        have hne' : t.tid ≠ tid0 := by simpa using (List.mem_filter.mp hin).2
        have hne : t.device ≠ dev := by
          intro hdev
          have h1 := (hlink t hmem).1
          rw [hdev, hd] at h1
          exact hne' (Option.some.inj h1).symm
        refine ⟨?_, Nat.lt_succ_of_lt (hlink t hmem).2⟩
        rw [aget_aset_ne dev t.device s.next_tid s.auto_off_timers hne]
        exact (hlink t hmem).1
      · have ht' : t = ⟨s.next_tid, dev, ch, dur * 1000⟩ := by simpa using hnew
        subst ht'
        exact ⟨aget_aset_self dev s.next_tid s.auto_off_timers, Nat.lt_succ_self _⟩
    · rw [List.map_append]
      refine List.nodup_append.mpr
        ⟨((List.filter_sublist _).map TimerObj.tid).nodup hnodup, by simp, ?_⟩
      intro x hx hx'
      have hxk : x = s.next_tid := by simpa using hx'
      rcases List.mem_map.mp hx with ⟨t, htmem, htid⟩
      have := (hlink t (List.mem_of_mem_filter htmem)).2
      omega

theorem fire_auto_off_eq (s : ESP32Controller) (tid : Nat) (t : TimerObj)
    (hf : s.live_timers.find? (fun u => u.tid = tid) = some t)
    (hdict : aget t.device s.auto_off_timers = some t.tid) :
    s.fire_auto_off tid =
      { s with live_timers := s.live_timers.filter (fun u => u.tid ≠ tid),
               relays := aset t.channel false s.relays,
               device_status := aset t.device false s.device_status,
               auto_off_timers := adel t.device s.auto_off_timers } := by
  unfold ESP32Controller.fire_auto_off
  simp only [hf, hdict]

theorem timersWF_fire (s : ESP32Controller) (tid : Nat)
    (h : TimersWF s) : TimersWF (s.fire_auto_off tid) := by
  obtain ⟨hlink, hnodup, hkeys⟩ := h
  cases hf : s.live_timers.find? (fun u => u.tid = tid) with
  | none =>
    unfold ESP32Controller.fire_auto_off
    rw [hf]
    exact ⟨hlink, hnodup, hkeys⟩
  | some t =>
    have htmem : t ∈ s.live_timers := List.mem_of_find?_eq_some hf
    have htid : t.tid = tid := by simpa using List.find?_some hf
    have hdict : aget t.device s.auto_off_timers = some t.tid := (hlink t htmem).1
    rw [fire_auto_off_eq s tid t hf hdict]
    refine ⟨?_, ((List.filter_sublist _).map TimerObj.tid).nodup hnodup,
            keys_adel_nodup t.device s.auto_off_timers hkeys⟩
    intro u hu
    have humem := (List.mem_filter.mp hu).1
    have hune : u.tid ≠ tid := by simpa using (List.mem_filter.mp hu).2
    have hne : u.device ≠ t.device := by
      intro hdev
      have h1 := (hlink u humem).1
      rw [hdev, hdict] at h1
      apply hune
      rw [← htid]
      exact (Option.some.inj h1).symm
    refine ⟨?_, (hlink u humem).2⟩
    rw [aget_adel_ne t.device u.device s.auto_off_timers hne]
    exact (hlink u humem).1

theorem timersWF_execTaskDevice (s : ESP32Controller) (dev : String) (dur : Nat)
    (h : TimersWF s) : TimersWF (s.execTaskDevice dev dur) := by
  unfold ESP32Controller.execTaskDevice
  split_ifs
  · exact timersWF_set_auto_off _ _ _ _ h
  · exact timersWF_set_auto_off _ _ _ _ h
  · exact timersWF_set_auto_off _ _ _ _ h
  · exact timersWF_set_auto_off _ _ _ _ h
  · exact h

theorem timersWF_tick (s : ESP32Controller) (d tm : String)
    (h : TimersWF s) : TimersWF (s.check_scheduled_tasks d tm) := by
  unfold ESP32Controller.check_scheduled_tasks
  cases hfind : findFirstMatch d tm s.task_manager.tasks with
  | none => exact h
  | some p =>
    obtain ⟨i, task⟩ := p
    exact timersWF_execTaskDevice s task.device task.duration h

/-- The operations that mutate controller state during operation: arming an
auto-off timer (manual-activation path), a timer firing, a scheduler tick,
and the task-add/task-delete handlers acting on the task manager. -/
inductive Step : ESP32Controller → ESP32Controller → Prop where
  | arm (s : ESP32Controller) (dev : String) (ch dur : Nat) :
      Step s (s.set_auto_off_timer dev ch dur)
  | fire (s : ESP32Controller) (tid : Nat) : Step s (s.fire_auto_off tid)
  | tick (s : ESP32Controller) (d tm : String) : Step s (s.check_scheduled_tasks d tm)
  | taskAdd (s : ESP32Controller) (date time device : String) (dur : Nat)
      (m' : TaskManager)
      (h : s.task_manager.add_task date time device dur = Except.ok m') :
      Step s { s with task_manager := m' }
  | taskDel (s : ESP32Controller) (i : Nat) :
      Step s { s with task_manager := (s.task_manager.delete_task i).1 }

/-- A state is reachable when some sequence of operations produces it from
the boot state (for some initial content of `tasks.json`). -/
def Reachable (s : ESP32Controller) : Prop :=
  ∃ loaded : List Task, Relation.ReflTransGen Step (initState loaded) s

theorem timersWF_step (s s' : ESP32Controller) (hstep : Step s s')
    (h : TimersWF s) : TimersWF s' := by
  cases hstep with
  | arm dev ch dur => exact timersWF_set_auto_off s dev ch dur h
  | fire tid => exact timersWF_fire s tid h
  | tick d tm => exact timersWF_tick s d tm h
  | taskAdd date time device dur m' hadd => exact h
  | taskDel i => exact h

theorem timersWF_reachable (s : ESP32Controller) (h : Reachable s) : TimersWF s := by
  obtain ⟨loaded, hr⟩ := h
  induction hr with
  | refl => exact timersWF_initState loaded
  | tail hsteps hstep ih => exact timersWF_step _ _ hstep ih

theorem nodup_const_length_le_one (l : List Nat) (k : Nat)
    (hn : l.Nodup) (hall : ∀ x ∈ l, x = k) : l.length ≤ 1 := by
  match l with
  | [] => simp
  | [x] => simp
  | x :: y :: rest =>
    exfalso
    have hx : x = k := hall x (by simp)
    have hy : y = k := hall y (by simp)
    have hc := List.nodup_cons.mp hn
    exact hc.1 (by simp [hx, hy])

theorem liveFor_length_le_one (s : ESP32Controller) (h : TimersWF s) (dev : String) :
    (liveFor s dev).length ≤ 1 := by
  obtain ⟨hlink, hnodup, -⟩ := h
  cases hk : aget dev s.auto_off_timers with
  | none =>
    have hempty : liveFor s dev = [] := by
      refine List.filter_eq_nil_iff.mpr ?_
      intro t ht hdev
      have hdev' : t.device = dev := by simpa using hdev
      have h1 := (hlink t ht).1
      rw [hdev', hk] at h1
      exact Option.noConfusion h1
    simp [hempty]
  | some k =>
    have hsub : ((liveFor s dev).map TimerObj.tid).Sublist (s.live_timers.map TimerObj.tid) :=
      (List.filter_sublist _).map TimerObj.tid
    have hlen : (liveFor s dev).length = ((liveFor s dev).map TimerObj.tid).length := by simp
    rw [hlen]
    refine nodup_const_length_le_one _ k (hsub.nodup hnodup) ?_
    intro x hx
    rcases List.mem_map.mp hx with ⟨t, htmem, htid⟩
    have hmem := (List.mem_filter.mp htmem).1
    have hdev : t.device = dev := by simpa using (List.mem_filter.mp htmem).2
    have h1 := (hlink t hmem).1
    rw [hdev, hk] at h1
    rw [← htid]
    exact (Option.some.inj h1).symm

theorem liveFor_arm (s : ESP32Controller) (dev : String) (ch dur : Nat)
    (h : TimersWF s) :
    liveFor (s.set_auto_off_timer dev ch dur) dev = [⟨s.next_tid, dev, ch, dur * 1000⟩] := by
  obtain ⟨hlink, -, -⟩ := h
  unfold liveFor ESP32Controller.set_auto_off_timer
  cases hd : aget dev s.auto_off_timers with
  | none =>
    simp only [List.filter_append]
    have h1 : s.live_timers.filter (fun t => t.device = dev) = [] := by
      refine List.filter_eq_nil_iff.mpr ?_
      intro t ht hdev
      have hdev' : t.device = dev := by simpa using hdev
      have h2 := (hlink t ht).1
      rw [hdev', hd] at h2
      exact Option.noConfusion h2
    rw [h1]
    simp
  | some tid0 =>
    simp only [List.filter_append]
    have h1 : (s.live_timers.filter (fun t => t.tid ≠ tid0)).filter
        (fun t => t.device = dev) = [] := by
      refine List.filter_eq_nil_iff.mpr ?_
      intro t ht hdev
      have hdev' : t.device = dev := by simpa using hdev
      have hmem := (List.mem_filter.mp ht).1
      have hne : t.tid ≠ tid0 := by simpa using (List.mem_filter.mp ht).2
      have h2 := (hlink t hmem).1
      rw [hdev', hd] at h2
      exact hne (Option.some.inj h2).symm
    rw [h1]
    simp

/-- Claim C2: in every reachable state there is at most one live auto-off
timer per device; re-arming a device's timer twice in a row leaves exactly
one live timer for it, the last-scheduled one; and a firing timer turns its
device's registry entry off, leaves no live timer for the device, and
removes the device's entry from the timer dictionary. -/
theorem auto_off_single_timer_spec (s : ESP32Controller) (h : Reachable s) :
    (∀ dev, (liveFor s dev).length ≤ 1) ∧
    (∀ (dev : String) (ch d1 d2 : Nat), ∃ k,
      liveFor ((s.set_auto_off_timer dev ch d1).set_auto_off_timer dev ch d2) dev =
        [⟨k, dev, ch, d2 * 1000⟩]) ∧
    (∀ (tid : Nat) (t : TimerObj),
      s.live_timers.find? (fun u => u.tid = tid) = some t →
      aget t.device (s.fire_auto_off tid).device_status = some false ∧
      liveFor (s.fire_auto_off tid) t.device = [] ∧
      aget t.device (s.fire_auto_off tid).auto_off_timers = none) := by
  have hwf := timersWF_reachable s h
  refine ⟨liveFor_length_le_one s hwf, ?_, ?_⟩
  · intro dev ch d1 d2
    exact ⟨(s.set_auto_off_timer dev ch d1).next_tid,
      liveFor_arm _ dev ch d2 (timersWF_set_auto_off s dev ch d1 hwf)⟩
  · intro tid t hf
    have htmem : t ∈ s.live_timers := List.mem_of_find?_eq_some hf
    have htid : t.tid = tid := by simpa using List.find?_some hf
    have hdict : aget t.device s.auto_off_timers = some t.tid := (hwf.1 t htmem).1
    rw [fire_auto_off_eq s tid t hf hdict]
    refine ⟨aget_aset_self t.device false s.device_status, ?_,
            aget_adel_self t.device s.auto_off_timers hwf.2.2⟩
    refine List.filter_eq_nil_iff.mpr ?_
    intro u hu hdev
    have hdev' : u.device = t.device := by simpa using hdev
    have humem := (List.mem_filter.mp hu).1
    have hune : u.tid ≠ tid := by simpa using (List.mem_filter.mp hu).2
    have h1 := (hwf.1 u humem).1
    rw [hdev', hdict] at h1
    apply hune
    rw [← htid]
    exact (Option.some.inj h1).symm

/-- Witness for `auto_off_single_timer_spec` at the boot state: re-arming
pump1 twice leaves exactly one live timer, with the second period. -/
theorem auto_off_single_timer_spec_witness :
    (liveFor (initState []) "pump1").length ≤ 1 ∧
    (∃ k, liveFor (((initState []).set_auto_off_timer "pump1" 0 300).set_auto_off_timer
        "pump1" 0 600) "pump1" = [⟨k, "pump1", 0, 600 * 1000⟩]) := by
  have h := auto_off_single_timer_spec (initState []) ⟨[], Relation.ReflTransGen.refl⟩
  exact ⟨h.1 "pump1", h.2.1 "pump1" 0 300 600⟩


/-! ### MicroWebSrv route model (microWebSrv.py) -/

/-- A compiled route-pattern segment (`MicroWebSrv.__init__`, lines 184-201):
a pattern segment `<name>` compiles to a word-class capture group, any other
non-empty segment is emitted literally into the route regex. -/
inductive RSeg where
  | lit (s : String)
  | capture (name : String)
deriving DecidableEq

/-- A character of the regex word class as matched by the capture groups
built in `MicroWebSrv.__init__`: ASCII letters, digits and the underscore
(MicroPython's `re` implements the ASCII class). -/
def isWordChar (c : Char) : Bool := c.isAlphanum || c = '_'

/-- Compilation of one pattern segment (`MicroWebSrv.__init__` lines
191-196): the empty segments produced by `route.split('/')` are skipped, a
segment of the form `<name>` becomes the capture `name` (`s[1:-1]`), and
every other segment is literal.  Literal segments of the repository's routes
contain no regex metacharacters, so literal regex emission is exact string
matching. -/
def compileSeg (s : String) : Option RSeg :=
  if s = "" then none
  else if s.data.head? = some '<' ∧ s.data.getLast? = some '>' then
    some (RSeg.capture (String.mk s.data.tail.dropLast))
  else some (RSeg.lit s)

/-- Python `str.split('/')` on the character list: the fields between the
slashes, empty fields included. -/
def splitSlashAux (acc : List Char) : List Char → List (List Char)
  | [] => [acc.reverse]
  | '/' :: rest => acc.reverse :: splitSlashAux [] rest
  | c :: rest => splitSlashAux (c :: acc) rest

/-- `route.split('/')` + per-segment compilation (`MicroWebSrv.__init__`). -/
def compileRoute (route : String) : List RSeg :=
  ((splitSlashAux [] route.data).map String.mk).filterMap compileSeg

/-- Matching the compiled anchored route regex against a path already split
into `/`-separated segments, returning the captured values in order: a
literal segment must be equal, a capture group matches exactly a (possibly
empty) run of word characters, and the end anchor forces both lists to be
exhausted together. -/
def matchSegs : List RSeg → List String → Option (List String)
  | [], [] => some []
  | RSeg.lit l :: rs, x :: xs => if x = l then matchSegs rs xs else none
  | RSeg.capture _ :: rs, x :: xs =>
    if x.data.all isWordChar then (matchSegs rs xs).map (fun vs => x :: vs) else none
  | _, _ => none

/-- Decomposition of a request path for regex matching: the compiled route
regex starts with `/` (or is the bare end anchor for the root pattern), so a
non-empty path that does not start with `/` can never match; otherwise the
path contributes the segments after the leading `/`. -/
def urlSegs (p : String) : Option (List String) :=
  match p.data with
  | [] => some []
  | '/' :: rest => some ((splitSlashAux [] rest).map String.mk)
  | _ => none

/-- `rh.routeRegex.match(resUrl)` of `GetRouteHandler`: anchored match of
the compiled segments against the path, returning captured values. -/
def matchPath (segs : List RSeg) (p : String) : Option (List String) :=
  match urlSegs p with
  | some xs => matchSegs segs xs
  | none => none

/-- A route argument after the `int(value)` coercion attempt of
`GetRouteHandler` (microWebSrv.py lines 275-281). -/
inductive RouteVal where
  | int (n : Nat)
  | str (s : String)
deriving DecidableEq

/-- Decimal value of a digit string. -/
def natOfDigits (cs : List Char) : Nat :=
  cs.foldl (fun a c => a * 10 + (c.toNat - 48)) 0

/-- The `try: value = int(value) except: pass` coercion of `GetRouteHandler`:
among word-class captures, `int()` succeeds exactly on non-empty all-digit
strings (sign characters and spaces are not word characters, and the
CPython-only PEP-515 underscore grouping is absent from the MicroPython
target). -/
def coerceArg (v : String) : RouteVal :=
  if v.data ≠ [] ∧ v.data.all Char.isDigit then RouteVal.int (natOfDigits v.data)
  else RouteVal.str v

/-- A registered route of `MicroWebSrv` (`MicroWebSrvRoute`): the method
string as registered, the compiled pattern segments, and the handler
function modelled as an opaque identifier. -/
structure MicroWebSrvRoute where
  method : String
  segs : List RSeg
  func : Nat
deriving DecidableEq

/-- The capture names of a compiled pattern, in order (`routeArgNames`). -/
def captureNames : List RSeg → List String
  | [] => []
  | RSeg.capture n :: r => n :: captureNames r
  | RSeg.lit _ :: r => captureNames r

/-- `if resUrl.endswith('/'): resUrl = resUrl[:-1]` in `GetRouteHandler`. -/
def stripTrailingSlash (p : String) : String :=
  if p.data.getLast? = some '/' then String.mk p.data.dropLast else p

/-- `method.upper()`: ASCII upper-casing, character by character. -/
def upperStr (s : String) : String := String.mk (s.data.map Char.toUpper)

/-- The `for rh in self._routeHandlers` loop of `GetRouteHandler`
(microWebSrv.py lines 263-285): first registered route whose method equals
the upper-cased request method and whose regex matches wins; its captures
are zipped with the capture names after `int` coercion. -/
def getRouteHandlerAux (url m : String) :
    List MicroWebSrvRoute → Option (Nat × List (String × RouteVal))
  | [] => none
  | r :: rest =>
    if r.method = m then
      match matchPath r.segs url with
      | some caps => some (r.func, (captureNames r.segs).zip (caps.map coerceArg))
      | none => getRouteHandlerAux url m rest
    else getRouteHandlerAux url m rest

/-- `MicroWebSrv.GetRouteHandler(resUrl, method)`: trailing-slash trim,
method upper-casing, then the first-match scan. -/
def GetRouteHandler (routes : List MicroWebSrvRoute) (resUrl method : String) :
    Option (Nat × List (String × RouteVal)) :=
  getRouteHandlerAux (stripTrailingSlash resUrl) (upperStr method) routes

/-- A route accepts a request when its registered method equals the
upper-cased request method and its regex matches the trimmed path. -/
def routeAccepts (r : MicroWebSrvRoute) (resUrl method : String) : Bool :=
  (r.method == upperStr method) && (matchPath r.segs (stripTrailingSlash resUrl)).isSome

theorem routeAccepts_iff (r : MicroWebSrvRoute) (resUrl method : String) :
    routeAccepts r resUrl method = true ↔
      (r.method = upperStr method ∧
        (matchPath r.segs (stripTrailingSlash resUrl)).isSome = true) := by
  simp [routeAccepts, Bool.and_eq_true]

theorem getRouteHandlerAux_first (url m : String) (routes : List MicroWebSrvRoute)
    (i : Nat) (hi : i < routes.length)
    (hmatch : (routes.get ⟨i, hi⟩).method = m ∧
      (matchPath (routes.get ⟨i, hi⟩).segs url).isSome = true)
    (hfirst : ∀ j (hj : j < routes.length), j < i →
      ¬((routes.get ⟨j, hj⟩).method = m ∧
        (matchPath (routes.get ⟨j, hj⟩).segs url).isSome = true)) :
    ∃ args, getRouteHandlerAux url m routes = some ((routes.get ⟨i, hi⟩).func, args) := by
  induction routes generalizing i with
  | nil => exact absurd hi (by simp)
  | cons r rest ih =>
    cases i with
    | zero =>
      have hm0 : r.method = m := hmatch.1
      have hs0 : (matchPath r.segs url).isSome = true := hmatch.2
      obtain ⟨caps, hcaps⟩ := Option.isSome_iff_exists.mp hs0
      refine ⟨(captureNames r.segs).zip (caps.map coerceArg), ?_⟩
      rw [getRouteHandlerAux, if_pos hm0, hcaps]
      rfl
    | succ i' =>
      have hi' : i' < rest.length := Nat.lt_of_succ_lt_succ hi
      have h0 : ¬(r.method = m ∧ (matchPath r.segs url).isSome = true) :=
        hfirst 0 (Nat.succ_pos _) (Nat.succ_pos i')
      have hstep : getRouteHandlerAux url m (r :: rest) = getRouteHandlerAux url m rest := by
        rw [getRouteHandlerAux]
        by_cases hme : r.method = m
        · rw [if_pos hme]
          cases hmp : matchPath r.segs url with
          | none => rfl
          | some caps => exact absurd ⟨hme, by rw [hmp]; rfl⟩ h0
        · rw [if_neg hme]
      rw [hstep]
      exact ih i' hi' hmatch (fun j hj hlt => hfirst (j + 1) (Nat.succ_lt_succ hj)
        (Nat.succ_lt_succ hlt))

/-- Claim C3: `GetRouteHandler` returns the handler of the first pattern in
registration order that accepts the request (method equal to the upper-cased
request method, regex matching the trailing-slash-trimmed path); no
longest-match or specificity ranking exists, so whenever the route at index
`i` accepts and every earlier route rejects, the route at `i` wins — however
many later routes would also accept. -/
theorem route_first_match_spec (routes : List MicroWebSrvRoute) (resUrl method : String)
    (i : Nat) (hi : i < routes.length)
    (hmatch : routeAccepts (routes.get ⟨i, hi⟩) resUrl method = true)
    (hfirst : ∀ j (hj : j < routes.length), j < i →
      routeAccepts (routes.get ⟨j, hj⟩) resUrl method = false) :
    ∃ args, GetRouteHandler routes resUrl method =
      some ((routes.get ⟨i, hi⟩).func, args) := by
  unfold GetRouteHandler
  refine getRouteHandlerAux_first (stripTrailingSlash resUrl) (upperStr method) routes i hi
    ((routeAccepts_iff _ _ _).mp hmatch) ?_
  intro j hj hlt hacc
  have hacc' := (routeAccepts_iff (routes.get ⟨j, hj⟩) resUrl method).mpr hacc
  rw [hfirst j hj hlt] at hacc'
  exact Bool.noConfusion hacc'

/-- Witness for `route_first_match_spec`: two GET routes both matching
`/users/5` — the generic `/users/<id>` registered first and the more
specific literal `/users/5` second; resolution returns the first one's
handler (id 10), not the more specific later one. -/
theorem route_first_match_spec_witness :
    ∃ args, GetRouteHandler
      [⟨"GET", [RSeg.lit "users", RSeg.capture "id"], 10⟩,
       ⟨"GET", [RSeg.lit "users", RSeg.lit "5"], 20⟩] "/users/5" "GET" =
      some (10, args) :=
  route_first_match_spec
    [⟨"GET", [RSeg.lit "users", RSeg.capture "id"], 10⟩,
     ⟨"GET", [RSeg.lit "users", RSeg.lit "5"], 20⟩] "/users/5" "GET"
    0 (by decide) (by decide) (fun j hj hlt => absurd hlt (Nat.not_lt_zero j))

/-- Claim C8 counterexample: the segment "turn-on" contains no slash, yet a
`<name>` capture does not match it, because `-` is not a word character;
this refutes the claim that a capture segment matches every
non-slash-containing segment. -/
theorem capture_segment_cex :
    (¬ '/' ∈ "turn-on".data) ∧
    matchSegs [RSeg.capture "action"] ["turn-on"] = none ∧
    matchPath [RSeg.capture "action"] "/turn-on" = none ∧
    compileSeg "<action>" = some (RSeg.capture "action") := by
  decide

/-- Claim C8 (amended): a `<name>` pattern segment matches exactly the
(possibly empty) segments made of word characters (ASCII letters, digits,
underscore) — hence nothing containing a slash, but also nothing containing
any other non-word character; the captured value is coerced to an integer
exactly when it is a non-empty digit string and kept as a string otherwise;
any other pattern segment matches only the identical literal segment. -/
theorem capture_segment_spec (name x lt : String) :
    ((matchSegs [RSeg.capture name] [x]).isSome = x.data.all isWordChar) ∧
    ('/' ∈ x.data → (matchSegs [RSeg.capture name] [x]).isSome = false) ∧
    ((matchSegs [RSeg.lit lt] [x]).isSome = true ↔ x = lt) ∧
    (x.data ≠ [] → x.data.all Char.isDigit →
      coerceArg x = RouteVal.int (natOfDigits x.data)) ∧
    ((x.data = [] ∨ ¬(x.data.all Char.isDigit = true)) → coerceArg x = RouteVal.str x) := by
  refine ⟨?_, ?_, ?_, ?_, ?_⟩
  · cases hw : x.data.all isWordChar <;> simp [matchSegs, hw]
  · intro hs
    have hw : x.data.all isWordChar = false := by
      rw [List.all_eq_false]
      exact ⟨'/', hs, by simp [isWordChar]⟩
    simp [matchSegs, hw]
  · by_cases hx : x = lt <;> simp [matchSegs, hx]
  · intro h1 h2
    unfold coerceArg
    rw [if_pos ⟨h1, h2⟩]
  · intro h
    unfold coerceArg
    rcases h with h | h
    · rw [if_neg (fun hc => hc.1 h)]
    · rw [if_neg (fun hc => h hc.2)]

/-- Witness for `capture_segment_spec` on concrete segments. -/
theorem capture_segment_spec_witness :
    (matchSegs [RSeg.capture "id"] ["a_b9"]).isSome = true ∧
    ((matchSegs [RSeg.lit "users"] ["users"]).isSome = true) ∧
    coerceArg "42" = RouteVal.int 42 ∧
    coerceArg "turn_on" = RouteVal.str "turn_on" := by
  refine ⟨?_, ?_, ?_, ?_⟩
  · rw [(capture_segment_spec "id" "a_b9" "users").1]
    decide
  · exact ((capture_segment_spec "id" "users" "users").2.2.1).mpr rfl
  · exact (capture_segment_spec "id" "42" "users").2.2.2.1 (by decide) (by decide)
  · exact (capture_segment_spec "id" "turn_on" "users").2.2.2.2 (Or.inr (by decide))


/-! ### Static-path normalization (claim C6) -/

/-- `urlPath.replace('../', '/')` from `_physPathFromURLPath`
(microWebSrv.py line 296): Python `str.replace` scans left to right and
replaces non-overlapping occurrences of `../` with `/`, never rescanning
text produced by an earlier replacement. -/
def replaceDotDotSlash : List Char → List Char
  | '.' :: '.' :: '/' :: rest => '/' :: replaceDotDotSlash rest
  | c :: rest => c :: replaceDotDotSlash rest
  | [] => []

/-- The fixed `_indexPages` list of `MicroWebSrv`. -/
def indexPages : List String :=
  ["index.pyhtml", "index.html", "index.htm",
   "default.pyhtml", "default.html", "default.htm"]

/-- `MicroWebSrv._physPathFromURLPath` (microWebSrv.py lines 289-299) with
the filesystem abstracted as an existence predicate: `/` resolves to the
first existing index page under the web root; any other path is appended to
the web root after the `../` replacement and returned when the file
exists. -/
def physPathFromURLPath (fexists : String → Bool) (webPath urlPath : String) :
    Option String :=
  if urlPath = "/" then
    (indexPages.find? (fun p => fexists (webPath ++ "/" ++ p))).map
      (fun p => webPath ++ "/" ++ p)
  else
    let physPath := webPath ++ String.mk (replaceDotDotSlash urlPath.data)
    if fexists physPath then some physPath else none

/-- The non-empty `/`-separated segments of a path (consecutive slashes
collapse, as they do on the filesystem). -/
def segsOf (p : String) : List String :=
  ((splitSlashAux [] p.data).map String.mk).filter (fun s => s ≠ "")

/-- Filesystem resolution of `.` and `..` segments: `..` pops the previous
segment (staying at the root when there is none), `.` is dropped. -/
def resolveDots (acc : List String) : List String → List String
  | [] => acc.reverse
  | ".." :: rest => resolveDots acc.tail rest
  | "." :: rest => resolveDots acc rest
  | sg :: rest => resolveDots (sg :: acc) rest

/-- The resolved segment list a path denotes on the filesystem. -/
def resolvePath (p : String) : List String := resolveDots [] (segsOf p)

/-- Claim C6 counterexample: for the request path `/....//etc/passwd`, the
single-pass replacement leaves `/..//etc/passwd` — which still contains the
traversal sequence `../` — and the physical path
`/flash/www/..//etc/passwd` resolves to `/flash/etc/passwd`, outside the
web root `/flash/www`; this refutes both the claim that all `../` sequences
are removed before lookup and the claim that the resulting physical path
never escapes the web root. -/
theorem path_traversal_escape_cex :
    String.mk (replaceDotDotSlash "/....//etc/passwd".data) = "/..//etc/passwd" ∧
    "../".data <:+: replaceDotDotSlash "/....//etc/passwd".data ∧
    physPathFromURLPath (fun _ => true) "/flash/www" "/....//etc/passwd" =
      some "/flash/www/..//etc/passwd" ∧
    resolvePath "/flash/www/..//etc/passwd" = ["flash", "etc", "passwd"] ∧
    ¬(resolvePath "/flash/www" <+: resolvePath "/flash/www/..//etc/passwd") := by
  refine ⟨by decide, ⟨['/'], "/etc/passwd".data, by decide⟩, by decide, by decide, ?_⟩
  intro h
  rcases h with ⟨t, ht⟩
  have hr : resolvePath "/flash/www" = ["flash", "www"] := by decide
  have hr2 : resolvePath "/flash/www/..//etc/passwd" = ["flash", "etc", "passwd"] := by decide
  rw [hr, hr2] at ht
  simp at ht

/-- Claim C6 (amended): static-path normalization replaces the left-to-right
non-overlapping occurrences of `../` with `/` in a single pass before the
filesystem lookup; this keeps plain traversal attempts such as
`/../../etc/passwd` inside the web root (they normalize to `///etc/passwd`
under the root), but it is not idempotent — a replacement can leave a new
`../` behind (as `....//` does), so the physical path is not in general
confined to the web root. -/
theorem path_traversal_repl_spec :
    String.mk (replaceDotDotSlash "/../../etc/passwd".data) = "///etc/passwd" ∧
    physPathFromURLPath (fun _ => true) "/flash/www" "/../../etc/passwd" =
      some "/flash/www///etc/passwd" ∧
    resolvePath "/flash/www///etc/passwd" = ["flash", "www", "etc", "passwd"] ∧
    (resolvePath "/flash/www" <+: resolvePath "/flash/www///etc/passwd") ∧
    String.mk (replaceDotDotSlash "/....//etc/passwd".data) = "/..//etc/passwd" := by
  refine ⟨by decide, by decide, by decide, ⟨["etc", "passwd"], ?_⟩, by decide⟩
  have hr : resolvePath "/flash/www" = ["flash", "www"] := by decide
  have hr2 : resolvePath "/flash/www///etc/passwd" = ["flash", "www", "etc", "passwd"] := by
    decide
  rw [hr, hr2]
  rfl

/-! ### Per-connection request processing (claims C7, C9) -/

/-- Whether `from microWebSocket import MicroWebSocket` succeeded: the
module is not present in this repository (lib/MicroWebServ contains only
microWebSrv.py), so the import at microWebSrv.py lines 19-22 fails and the
name is not in `globals()`. -/
def microWebSocketAvailable : Bool := false

/-- Whether `from microWebTemplate import MicroWebTemplate` succeeded: the
module is likewise absent from this repository. -/
def microWebTemplateAvailable : Bool := false

/-- The `Connection: upgrade` classification computed by `_getConnUpgrade`. -/
inductive UpgradeHdr where
  | noUpgrade
  | websocket
  | otherProto
deriving DecidableEq

/-- Outcome of the static-file lookup for an unrouted GET request. -/
inductive StaticKind where
  | pyhtml
  | knownMime
  | unknownMime
  | missing
deriving DecidableEq

/-- Outcome of route resolution for a parsed request. -/
inductive DispatchCase where
  | routed (handlerThrows : Bool)
  | unroutedGet (st : StaticKind) (ifModifiedSince : Bool)
  | unroutedOther
deriving DecidableEq

/-- Observable result of `_processRequest` for one accepted connection: the
framework-written error/static status (`none` when the route handler wrote
its own response, or when the request line was unparsable — the code writes
no 400 in that case — or on the websocket hand-off), the number of times the
underlying connection is closed, and whether an exception escaped
`_processRequest` into `_serverProcess`. -/
structure ProcResult where
  frameworkStatus : Option Nat
  socketCloses : Nat
  escaped : Bool
deriving DecidableEq

/-- The `try:` body of `_processRequest` (microWebSrv.py lines 334-386),
with the outcomes of the I/O sub-steps (`_parseFirstLine`, `_parseHeader`,
`_getConnUpgrade`, route resolution, static lookup) as parameters.  An
`Except.error` is an exception leaving the body — the only source is a
route-handler exception, which the inner `except` re-raises after logging
(lines 347-349).  The `Bool` in the result is `true` on the websocket
hand-off path, which `return`s before the closing block (line 382). -/
def tryBody (firstLineOk headerOk : Bool) (upg : UpgradeHdr)
    (acceptWsCallback : Bool) (cacheLevel : Nat) (disp : DispatchCase) :
    Except String (Option Nat × Bool) :=
  if ¬firstLineOk then Except.ok (none, false)
  else if ¬headerOk then Except.ok (some 400, false)
  else
    match upg with
    | UpgradeHdr.noUpgrade =>
      match disp with
      | DispatchCase.routed throws =>
        if throws then Except.error "handler exception" else Except.ok (none, false)
      | DispatchCase.unroutedGet st ims =>
        match st with
        | StaticKind.pyhtml =>
          if microWebTemplateAvailable then Except.ok (some 200, false)
          else Except.ok (some 501, false)
        | StaticKind.knownMime =>
          if 1 < cacheLevel ∧ ims then Except.ok (some 304, false)
          else Except.ok (some 200, false)
        | StaticKind.unknownMime => Except.ok (some 403, false)
        | StaticKind.missing => Except.ok (some 404, false)
      | DispatchCase.unroutedOther => Except.ok (some 405, false)
    | UpgradeHdr.websocket =>
      if microWebSocketAvailable ∧ acceptWsCallback then Except.ok (none, true)
      else Except.ok (some 501, false)
    | UpgradeHdr.otherProto => Except.ok (some 501, false)

/-- `_processRequest` (microWebSrv.py lines 333-394): the bare `except:`
catches everything escaping the body and writes a 500; then the closing
block runs unconditionally (itself wrapped in `try/except: pass`), closing
the underlying connection exactly once — except on the websocket hand-off
path, whose early `return` skips the closing block. -/
def processRequest (firstLineOk headerOk : Bool) (upg : UpgradeHdr)
    (acceptWsCallback : Bool) (cacheLevel : Nat) (disp : DispatchCase) : ProcResult :=
  match tryBody firstLineOk headerOk upg acceptWsCallback cacheLevel disp with
  | Except.ok (st, earlyReturn) => ⟨st, if earlyReturn then 0 else 1, false⟩
  | Except.error _ => ⟨some 500, 1, false⟩

/-- Claim C7: in this repository the `microWebSocket` module is absent, so
the websocket hand-off branch is unreachable and every entry path of
`_processRequest` — successful dispatch, request-line or header parse
failure, handler exception, and protocol-upgrade request alike — closes the
underlying connection exactly once and lets no exception escape. -/
theorem connection_close_once_spec (firstLineOk headerOk : Bool) (upg : UpgradeHdr)
    (acceptWsCallback : Bool) (cacheLevel : Nat) (disp : DispatchCase) :
    (processRequest firstLineOk headerOk upg acceptWsCallback cacheLevel
        disp).socketCloses = 1 ∧
    (processRequest firstLineOk headerOk upg acceptWsCallback cacheLevel
        disp).escaped = false := by
  cases disp with
  | routed throws =>
    cases throws <;> cases firstLineOk <;> cases headerOk <;> cases upg <;>
      cases acceptWsCallback <;>
        simp [processRequest, tryBody, microWebSocketAvailable]
  | unroutedGet st ims =>
    cases st <;> cases ims <;> cases firstLineOk <;> cases headerOk <;> cases upg <;>
      cases acceptWsCallback <;>
        simp [processRequest, tryBody, microWebSocketAvailable,
          microWebTemplateAvailable] <;>
        split_ifs <;> simp
  | unroutedOther =>
    cases firstLineOk <;> cases headerOk <;> cases upg <;> cases acceptWsCallback <;>
      simp [processRequest, tryBody, microWebSocketAvailable]

/-- Claim C9: a request dispatched to a matched route handler whose handler
raises is answered with a framework-written 500 on that connection (the
inner `except` logs and re-raises, the outer bare `except:` converts to
500), the connection is still closed exactly once, and — on every path
whatsoever — no exception escapes `_processRequest` into the accept loop of
`_serverProcess`. -/
theorem handler_exception_500_spec :
    (∀ (acceptWsCallback : Bool) (cacheLevel : Nat),
      processRequest true true UpgradeHdr.noUpgrade acceptWsCallback cacheLevel
        (DispatchCase.routed true) = ⟨some 500, 1, false⟩) ∧
    (∀ (firstLineOk headerOk : Bool) (upg : UpgradeHdr) (acceptWsCallback : Bool)
        (cacheLevel : Nat) (disp : DispatchCase),
      (processRequest firstLineOk headerOk upg acceptWsCallback cacheLevel
          disp).escaped = false) := by
  constructor
  · intro cb cl
    simp [processRequest, tryBody]
  · intro fl hd upg cb cl disp
    unfold processRequest
    cases htb : tryBody fl hd upg cb cl disp with
    | ok p =>
      obtain ⟨st, er⟩ := p
      rfl
    | error e => rfl

end Esp
